import Mathlib

/-!
Verification development for the SupraSonic audio core (src/core/src).

The Rust sources are shallowly embedded:
* `audio.rs` — `AudioPacket`, the stream-construction emission of
  `AudioEngine::build_stream`, the command thread of `AudioEngine::new`,
  and the resample/chunk worker `AudioEngine::process_audio`;
* `state.rs` — the background dispatch loop spawned by `AppState::new`,
  together with `start_recording` / `stop_recording`;
* `diarization.rs` — `Speaker`, `SpeakerRegistry` and `DiarizationService`.

`f32` samples are modelled as `ℚ`: the embedded code only copies, compares
and takes absolute values of samples, all of which are exact on floats, so
no rounding behaviour is lost.  `HashMap<String, Speaker>` is modelled as an
association list with unique-key lookup semantics.  The serde_json text
layer is external to the repository; serialisation is modelled at the JSON
value level, mirroring the derived `Serialize`/`Deserialize` structure.
-/

namespace SupraSonic

/-- `const TARGET_SAMPLE_RATE: usize = 16000` (audio.rs). -/
def TARGET_SAMPLE_RATE : Nat := 16000

/-- `const ASR_CHUNK_MS: usize = 30` (audio.rs). -/
def ASR_CHUNK_MS : Nat := 30

/-- `const ASR_CHUNK_SIZE: usize = (TARGET_SAMPLE_RATE * ASR_CHUNK_MS) / 1000`
(audio.rs) — 480 samples. -/
def ASR_CHUNK_SIZE : Nat := (TARGET_SAMPLE_RATE * ASR_CHUNK_MS) / 1000

/-- `enum AudioPacket` (audio.rs): the typed packets carried by the data
channel from the audio engine to the dispatch loop. -/
inductive AudioPacket where
  | Format (sampleRate : Nat)
  | Samples (frames : List ℚ)
  | Level (peakAmplitude : ℚ)
  | Flush
deriving DecidableEq

/-- Error cases of `AudioEngine::build_stream` (audio.rs): no default input
device, or the device cannot report a default input configuration. -/
inductive BuildError where
  | NoInputDevice
  | StreamConfigError
deriving DecidableEq

/-- `AudioEngine::build_stream` (audio.rs lines 72-108), modelled as the list
of packets the function itself sends on the data channel before returning.
`hasDevice` stands for `host.default_input_device()` finding a device and
`deviceConfig` for `device.default_input_config()` succeeding with the given
native sample rate.  On the success path the code sends exactly one packet,
`AudioPacket::Format(TARGET_SAMPLE_RATE as u32)` — the comment in the source
reads "Notify of format (always 16kHz now)" — and then spawns the worker
thread, which only ever sends `Level`/`Samples` packets. -/
def build_stream (hasDevice : Bool) (deviceConfig : Option Nat) :
    Except BuildError (List AudioPacket) :=
  if hasDevice then
    match deviceConfig with
    | none => Except.error BuildError.StreamConfigError
    | some _source_sample_rate => Except.ok [AudioPacket.Format TARGET_SAMPLE_RATE]
  else
    Except.error BuildError.NoInputDevice

/-- The per-chunk peak computation of `AudioEngine::process_audio`
(audio.rs lines 179-183): `let mut max = 0.0f32; for &s in &chunk { let abs
= s.abs(); if abs > max { max = abs } }`. -/
def peakLevel (chunk : List ℚ) : ℚ :=
  chunk.foldl (fun m s => if (if s < 0 then -s else s) > m then (if s < 0 then -s else s) else m) 0

/-- The inner `while accumulated_samples.len() >= ASR_CHUNK_SIZE` drain loop
of `AudioEngine::process_audio` (audio.rs lines 175-189), written with a fuel
argument so that it computes by kernel reduction; `drainChunks` supplies
enough fuel.  Each iteration removes exactly `ASR_CHUNK_SIZE` samples from
the front of the accumulation buffer (`drain(0..ASR_CHUNK_SIZE)`), in FIFO
order.  Returns the drained chunks in emission order and the remaining
buffer. -/
def drainChunksAux : Nat → List ℚ → List (List ℚ) × List ℚ
  | 0, acc => ([], acc)
  | fuel + 1, acc =>
    if ASR_CHUNK_SIZE ≤ acc.length then
      let chunk := acc.take ASR_CHUNK_SIZE
      let rest := drainChunksAux fuel (acc.drop ASR_CHUNK_SIZE)
      (chunk :: rest.1, rest.2)
    else
      ([], acc)

/-- The drain loop with sufficient fuel: the loop removes at least one
sample per iteration, so `acc.length` iterations always suffice. -/
def drainChunks (acc : List ℚ) : List (List ℚ) × List ℚ :=
  drainChunksAux acc.length acc

/-- The outer loop of `AudioEngine::process_audio` across a whole session:
each element of `feeds` is one batch of samples appended to
`accumulated_samples` (either the passthrough read of audio.rs lines
166-172 or one resampler output block of lines 150-165), after which the
drain loop runs.  Returns all emitted chunks in emission order and the final
accumulation buffer. -/
def processFeeds (acc : List ℚ) : List (List ℚ) → List (List ℚ) × List ℚ
  | [] => ([], acc)
  | f :: fs =>
    let step := drainChunks (acc ++ f)
    let rest := processFeeds step.2 fs
    (step.1 ++ rest.1, rest.2)

/-- Packet emission of the drain loop (audio.rs lines 185-188): for each
drained chunk, `Level(max)` is sent first, then `Samples(chunk)`. -/
def emitChunkPackets (chunks : List (List ℚ)) : List AudioPacket :=
  chunks.flatMap fun c => [AudioPacket.Level (peakLevel c), AudioPacket.Samples c]

/-- The full packet stream emitted by the worker `process_audio` over a
session whose sample batches are `feeds`, starting from an empty
accumulation buffer. -/
def workerPackets (feeds : List (List ℚ)) : List AudioPacket :=
  emitChunkPackets (processFeeds [] feeds).1

/-- `enum AudioCommand` (audio.rs): the commands of the capture
controller's queue. -/
inductive AudioCommand where
  | Start
  | Stop
deriving DecidableEq

/-- One iteration of the command thread spawned by `AudioEngine::new`
(audio.rs lines 38-64), restricted to the session-handle state `stream:
Option<cpal::Stream>` (the thread holds at most one stream by type).
`buildOk` stands for `Self::build_stream(..)` followed by `s.play()` both
succeeding on this invocation.  On `Start`: if a stream already exists the
code hits `continue` and changes nothing; otherwise the stream is stored
exactly when construction and playback succeed (failures are logged and
discarded).  On `Stop` the stream is dropped (a `Flush` packet is also
sent; packet traffic is not needed by the claims about this thread and is
not modelled here). -/
def commandStep (buildOk : Bool) (stream : Option Unit) :
    AudioCommand → Option Unit
  | AudioCommand.Start =>
      if stream.isSome then stream
      else if buildOk then some () else none
  | AudioCommand.Stop => none

/-- `enum SupraSonicError` (state.rs). -/
inductive SupraSonicError where
  | Audio (msg : String)
  | Inference (msg : String)
  | Lock (msg : String)
  | General (msg : String)
deriving DecidableEq

/-- The calls the dispatch loop makes on the registered
`TranscriptionListener` (state.rs lines 6-9), recorded in order. -/
inductive ListenerCall where
  | onAudioData (samples : List ℚ)
  | onLevelChanged (level : ℚ)
deriving DecidableEq

/-- The mutable state of the background dispatch loop spawned by
`AppState::new` (state.rs lines 50-105): `audio_buffer` and the last-seen
`sample_rate`. -/
structure DispatchState where
  audio_buffer : List ℚ
  sample_rate : Nat
deriving DecidableEq

/-- The dispatch loop's initial state (state.rs lines 51-52):
`audio_buffer = vec![]`, `sample_rate = 48000`. -/
def initDispatchState : DispatchState :=
  { audio_buffer := [], sample_rate := 48000 }

/-- One iteration of the dispatch loop's `match packet` (state.rs lines
54-103).  `resample` embeds `resample_audio` (state.rs lines 147-201); its
FFT internals live in the external rubato crate, so it is kept as a
parameter returning `Except` like the Rust `anyhow::Result`.  `hasListener`
is whether `listener_clone` currently holds a listener.  Returns the new
state and the listener calls made, in order:
* `Format(sr)` records the rate;
* `Samples(data)` appends to the accumulation buffer without forwarding;
* `Level(lvl)` calls `on_level_changed` when a listener is registered;
* `Flush` with a non-empty buffer resamples when `sample_rate != 16000`
  (falling back to the unresampled buffer if resampling errors), calls
  `on_audio_data` when a listener is registered (otherwise logs a warning
  and drops the batch), and clears the buffer in every case. -/
def dispatchStep (resample : List ℚ → Nat → Nat → Except String (List ℚ))
    (hasListener : Bool) (st : DispatchState) :
    AudioPacket → DispatchState × List ListenerCall
  | AudioPacket.Format sr => ({ st with sample_rate := sr }, [])
  | AudioPacket.Samples data =>
      ({ st with audio_buffer := st.audio_buffer ++ data }, [])
  | AudioPacket.Level lvl =>
      (st, if hasListener then [ListenerCall.onLevelChanged lvl] else [])
  | AudioPacket.Flush =>
      if st.audio_buffer.isEmpty then
        (st, [])
      else
        let processed :=
          if st.sample_rate ≠ 16000 then
            match resample st.audio_buffer st.sample_rate 16000 with
            | Except.ok resampled => resampled
            | Except.error _ => st.audio_buffer
          else
            st.audio_buffer
        ({ st with audio_buffer := [] },
         if hasListener then [ListenerCall.onAudioData processed] else [])

/-- The dispatch loop run over a finite packet sequence, concatenating the
listener calls in the order they are made. -/
def dispatchRun (resample : List ℚ → Nat → Nat → Except String (List ℚ))
    (hasListener : Bool) (st : DispatchState) :
    List AudioPacket → DispatchState × List ListenerCall
  | [] => (st, [])
  | p :: ps =>
      let step := dispatchStep resample hasListener st p
      let rest := dispatchRun resample hasListener step.1 ps
      (rest.1, step.2 ++ rest.2)

/-- The `AppState` fields the lifecycle claims observe (state.rs lines
12-17): the `is_recording` flag and the command thread's session handle
(reached through the owned `AudioEngine`). -/
structure SysState where
  is_recording : Bool
  stream : Option Unit
deriving DecidableEq

/-- `AppState::start_recording` (state.rs lines 121-130) composed with the
command thread processing the queued `Start` (audio.rs lines 40-55):
`start_capture` only enqueues the command and succeeds, the flag is then
set to `true`, and `Ok(())` is returned — regardless of whether stream
construction (`buildOk`) succeeds on the command thread. -/
def sys_start_recording (buildOk : Bool) (s : SysState) :
    SysState × Except SupraSonicError Unit :=
  ({ is_recording := true,
     stream := commandStep buildOk s.stream AudioCommand.Start },
   Except.ok ())

/-- `AppState::stop_recording` (state.rs lines 132-144) composed with the
command thread processing the queued `Stop`: the stream is dropped, the
flag is cleared, and a `Flush` is sent on the data channel. -/
def sys_stop_recording (s : SysState) :
    SysState × Except SupraSonicError Unit :=
  ({ is_recording := false,
     stream := commandStep true s.stream AudioCommand.Stop },
   Except.ok ())

/-- `struct Speaker` (diarization.rs lines 7-12); the embedding entries are
`f32`, modelled as `ℚ`. -/
structure Speaker where
  id : String
  name : String
  embedding : Option (List ℚ)
deriving DecidableEq

/-- `struct SpeakerRegistry` (diarization.rs lines 23-26).  The
`HashMap<String, Speaker>` is modelled as an association list with
unique-key lookup semantics; insertion order is irrelevant to every
observable operation. -/
structure SpeakerRegistry where
  speakers : List (String × Speaker)
deriving DecidableEq

/-- `HashMap::get` on the modelled map: first (unique) matching key. -/
def lookupSpeaker : List (String × Speaker) → String → Option Speaker
  | [], _ => none
  | (k, v) :: rest, id => if k = id then some v else lookupSpeaker rest id

/-- The `get_mut` branch of `SpeakerRegistry::add_speaker` (diarization.rs
line 38): overwrite the `name` field of the entry stored under `id`,
leaving the entry's other fields and all other entries in place. -/
def updateSpeakerName : List (String × Speaker) → String → String →
    List (String × Speaker)
  | [], _, _ => []
  | (k, v) :: rest, id, name =>
      if k = id then (k, { v with name := name }) :: rest
      else (k, v) :: updateSpeakerName rest id name

/-- `SpeakerRegistry::new` (diarization.rs lines 29-33). -/
def SpeakerRegistry.new : SpeakerRegistry := ⟨[]⟩

/-- `SpeakerRegistry::add_speaker` (diarization.rs lines 35-46): if the id
exists, update the stored name; otherwise insert a fresh
`Speaker { id, name, embedding: None }`. -/
def SpeakerRegistry.add_speaker (r : SpeakerRegistry) (id name : String) :
    SpeakerRegistry :=
  match lookupSpeaker r.speakers id with
  | some _ => ⟨updateSpeakerName r.speakers id name⟩
  | none => ⟨r.speakers ++ [(id, ⟨id, name, none⟩)]⟩

/-- `SpeakerRegistry::get_speaker_name` (diarization.rs lines 48-50). -/
def SpeakerRegistry.get_speaker_name (r : SpeakerRegistry) (id : String) :
    Option String :=
  (lookupSpeaker r.speakers id).map Speaker.name

/-- `SpeakerRegistry::assign_speaker` (diarization.rs lines 53-57): a stub
returning the constant placeholder label. -/
def SpeakerRegistry.assign_speaker (_r : SpeakerRegistry)
    (_embedding : List ℚ) : String :=
  "Guest"

/-- JSON values, the target of the derived serde mapping.  The textual
rendering/parsing done by the external serde_json crate is not part of this
repository and is modelled away: persistence is tracked at the JSON value
level. -/
inductive Json where
  | null
  | num (q : ℚ)
  | str (s : String)
  | arr (elems : List Json)
  | obj (fields : List (String × Json))

/-- Object-field lookup used by the derived deserialiser. -/
def lookupField : List (String × Json) → String → Option Json
  | [], _ => none
  | (k, v) :: rest, name => if k = name then some v else lookupField rest name

/-- The derived `Serialize` for `Speaker`: a JSON object with the fields in
declaration order; `Option<Vec<f32>>` maps to `null` or an array of
numbers. -/
def encodeSpeaker (s : Speaker) : Json :=
  Json.obj
    [("id", Json.str s.id),
     ("name", Json.str s.name),
     ("embedding",
      match s.embedding with
      | none => Json.null
      | some v => Json.arr (v.map Json.num))]

/-- The derived `Serialize` for `SpeakerRegistry`: an object with one field
`speakers` holding the map as a JSON object. -/
def SpeakerRegistry.to_json (r : SpeakerRegistry) : Json :=
  Json.obj [("speakers", Json.obj (r.speakers.map fun p => (p.1, encodeSpeaker p.2)))]

/-- Deserialising a JSON array of numbers into a float vector. -/
def decodeNums : List Json → Option (List ℚ)
  | [] => some []
  | Json.num q :: rest => (decodeNums rest).map (q :: ·)
  | _ :: _ => none

/-- Deserialising the `embedding` field: `null` for `None`, an array of
numbers for `Some`. -/
def decodeEmbedding : Json → Option (Option (List ℚ))
  | Json.null => some none
  | Json.arr xs => (decodeNums xs).map some
  | _ => none

/-- The derived `Deserialize` for `Speaker`: requires an object carrying
string fields `id` and `name` and a well-formed `embedding`. -/
def decodeSpeaker : Json → Option Speaker
  | Json.obj fields =>
      match lookupField fields "id", lookupField fields "name",
            lookupField fields "embedding" with
      | some (Json.str id), some (Json.str name), some embJ =>
          (decodeEmbedding embJ).map fun emb => ⟨id, name, emb⟩
      | _, _, _ => none
  | _ => none

/-- Deserialising the map entries of the `speakers` object, failing if any
entry fails. -/
def decodeSpeakers : List (String × Json) → Option (List (String × Speaker))
  | [] => some []
  | (k, j) :: rest =>
      match decodeSpeaker j, decodeSpeakers rest with
      | some sp, some tail => some ((k, sp) :: tail)
      | _, _ => none

/-- The derived `Deserialize` for `SpeakerRegistry`. -/
def decodeRegistry : Json → Option SpeakerRegistry
  | Json.obj fields =>
      match lookupField fields "speakers" with
      | some (Json.obj entries) => (decodeSpeakers entries).map SpeakerRegistry.mk
      | _ => none
  | _ => none

/-- `SpeakerRegistry::from_json` (diarization.rs lines 63-65): parse,
falling back to `SpeakerRegistry::new()` on any failure. -/
def SpeakerRegistry.from_json (j : Json) : SpeakerRegistry :=
  (decodeRegistry j).getD SpeakerRegistry.new

/-- `DiarizationService::new` (diarization.rs lines 74-88), with the
storage file modelled as `Option Json` (`none` when the path does not
exist): load `from_json` of the file contents, or a fresh registry. -/
def service_new (file : Option Json) : SpeakerRegistry :=
  match file with
  | some content => SpeakerRegistry.from_json content
  | none => SpeakerRegistry.new

/-- `DiarizationService::register_speaker` (diarization.rs lines 97-102):
mutate the registry with `add_speaker`, then `save` persists `to_json` of
the whole registry to the storage file.  Returns the new in-memory registry
and the persisted file contents. -/
def service_register_speaker (r : SpeakerRegistry) (id name : String) :
    SpeakerRegistry × Json :=
  let r' := r.add_speaker id name
  (r', r'.to_json)

/-- `DiarizationService::get_speaker_name` (diarization.rs lines 104-109):
the stored name, or the id echoed back when absent. -/
def service_get_speaker_name (r : SpeakerRegistry) (id : String) : String :=
  (r.get_speaker_name id).getD id

/-- A resampler instance that succeeds and returns its input unchanged;
used to instantiate the dispatch loop on scenarios where `resample_audio`
is never consulted (rate already 16000). -/
def resampleNoop : List ℚ → Nat → Nat → Except String (List ℚ) :=
  fun l _ _ => Except.ok l

/-- A resampler instance that always fails, standing for a failing
`resample_audio` call (e.g. FFT resampler construction error). -/
def resampleErr : List ℚ → Nat → Nat → Except String (List ℚ) :=
  fun _ _ _ => Except.error "resample error"

end SupraSonic

namespace SupraSonic

/-- C1 counterexample: with an input device whose native configuration
reports 48000 Hz, stream construction succeeds and the single packet sent
on the data channel is `Format(16000)` — the canonical target rate — and
not `Format(48000)`, the native rate the claim requires. -/
theorem build_stream_format_counterexample :
    build_stream true (some 48000) = Except.ok [AudioPacket.Format 16000] ∧
    AudioPacket.Format 16000 ≠ AudioPacket.Format 48000 :=
  ⟨rfl, by decide⟩

/-- C1 (amended): when stream construction succeeds, exactly one
`Format(sampleRate)` packet is sent on the data channel before any
`Samples` packet, and its payload is always the canonical target rate
16000 — `TARGET_SAMPLE_RATE` — regardless of the device's native rate. -/
theorem build_stream_emits_target_format (hasDevice : Bool) (cfg : Option Nat)
    (pkts : List AudioPacket) (h : build_stream hasDevice cfg = Except.ok pkts) :
    pkts = [AudioPacket.Format TARGET_SAMPLE_RATE] := by
  cases hasDevice with
  | false => simp [build_stream] at h
  | true =>
      cases cfg with
      | none => simp [build_stream] at h
      | some rate =>
          simp [build_stream] at h
          exact h.symm

/-- C1 witness: the amended theorem applied at a device with native rate
44100. -/
theorem build_stream_emits_target_format_witness :
    build_stream true (some 44100) = Except.ok [AudioPacket.Format TARGET_SAMPLE_RATE] ∧
    ([AudioPacket.Format TARGET_SAMPLE_RATE] : List AudioPacket)
      = [AudioPacket.Format TARGET_SAMPLE_RATE] :=
  ⟨rfl, build_stream_emits_target_format true (some 44100) _ rfl⟩

/-- C5: Start is idempotent while a session is active.  A successful Start
from the idle command thread yields exactly one active session (the handle
is an `Option`, so the thread can never hold two streams), and a second
Start with no intervening Stop — whatever a fresh stream construction
would do (`b2`) — leaves the session handle exactly as it was: the code
hits `continue` without consulting the builder. -/
theorem start_idempotent_single_session (b2 : Bool) :
    commandStep true none AudioCommand.Start = some () ∧
    commandStep b2 (commandStep true none AudioCommand.Start) AudioCommand.Start
      = commandStep true none AudioCommand.Start := by
  cases b2 <;> exact ⟨rfl, rfl⟩

/-- C6: `start_recording` returns success and sets the recording flag to
`true` for every build outcome, in particular when stream construction
fails on the command thread (`buildOk = false`), in which case no session
handle is held; the flag only records that a start was requested, and it is
cleared again only by `stop_recording`. -/
theorem recording_flag_set_despite_build_failure (b buildOk : Bool) :
    (sys_start_recording buildOk ⟨b, none⟩).2 = Except.ok () ∧
    (sys_start_recording buildOk ⟨b, none⟩).1.is_recording = true ∧
    (sys_start_recording false ⟨b, none⟩).1.stream = none ∧
    (sys_stop_recording ⟨true, none⟩).1.is_recording = false := by
  cases b <;> cases buildOk <;> exact ⟨rfl, rfl, rfl, rfl⟩

/-- C7: a `Flush` arriving with a non-empty accumulation buffer and no
registered listener clears the buffer and makes no listener call (the
dispatch loop has no error channel at all, so no error can be returned);
the accumulated audio is gone, never retained for a listener registered
later. -/
theorem flush_no_listener_drops_batch
    (resample : List ℚ → Nat → Nat → Except String (List ℚ))
    (st : DispatchState) (h : st.audio_buffer ≠ []) :
    dispatchStep resample false st AudioPacket.Flush
      = ({ st with audio_buffer := [] }, []) := by
  simp [dispatchStep, h]

/-- C7 witness: the theorem applied at a one-sample buffer. -/
theorem flush_no_listener_drops_batch_witness :
    ([(1 : ℚ)] ≠ ([] : List ℚ)) ∧
    dispatchStep resampleNoop false ⟨[(1 : ℚ)], 48000⟩ AudioPacket.Flush
      = (⟨[], 48000⟩, []) :=
  ⟨by decide, flush_no_listener_drops_batch resampleNoop ⟨[(1 : ℚ)], 48000⟩ (by decide)⟩

/-- C8: when the finalization resample fails during a `Flush` (non-empty
buffer, stored rate different from 16000, `resample_audio` returning an
error), the listener still receives `on_audio_data` with the unresampled
accumulation buffer, and the buffer is cleared — the audio is not
dropped. -/
theorem flush_resample_error_falls_back
    (resample : List ℚ → Nat → Nat → Except String (List ℚ))
    (st : DispatchState) (e : String)
    (hbuf : st.audio_buffer ≠ []) (hrate : st.sample_rate ≠ 16000)
    (herr : resample st.audio_buffer st.sample_rate 16000 = Except.error e) :
    dispatchStep resample true st AudioPacket.Flush
      = ({ st with audio_buffer := [] },
         [ListenerCall.onAudioData st.audio_buffer]) := by
  simp [dispatchStep, hbuf, hrate, herr]

/-- C8 witness: the theorem applied at a one-sample 48000 Hz buffer with
the always-failing resampler. -/
theorem flush_resample_error_falls_back_witness :
    ([(1 : ℚ)] ≠ ([] : List ℚ)) ∧ (48000 ≠ 16000) ∧
    resampleErr [(1 : ℚ)] 48000 16000 = Except.error "resample error" ∧
    dispatchStep resampleErr true ⟨[(1 : ℚ)], 48000⟩ AudioPacket.Flush
      = (⟨[], 48000⟩, [ListenerCall.onAudioData [(1 : ℚ)]]) :=
  ⟨by decide, by decide, rfl,
   flush_resample_error_falls_back resampleErr ⟨[(1 : ℚ)], 48000⟩ "resample error"
     (by decide) (by decide) rfl⟩

/-- C9: registry persistence round-trip.  Registering speaker "s1" with
name "Alice" in a fresh registry, persisting it (`to_json`, written to the
storage file), and reloading the service from the persisted form
(`DiarizationService::new` reading the file back through `from_json`)
yields `get_speaker_name("s1") = "Alice"`. -/
theorem register_speaker_roundtrip :
    service_get_speaker_name
      (service_new (some (service_register_speaker SpeakerRegistry.new "s1" "Alice").2))
      "s1" = "Alice" := by
  decide

lemma lookup_updateSpeakerName_self (l : List (String × Speaker)) (id name : String) :
    lookupSpeaker (updateSpeakerName l id name) id
      = (lookupSpeaker l id).map fun v => { v with name := name } := by
  induction l with
  | nil => rfl
  | cons p rest ih =>
      obtain ⟨k, v⟩ := p
      by_cases hk : k = id <;> simp [updateSpeakerName, lookupSpeaker, hk, ih]

lemma lookup_updateSpeakerName_other (l : List (String × Speaker))
    (id name k : String) (hk : k ≠ id) :
    lookupSpeaker (updateSpeakerName l id name) k = lookupSpeaker l k := by
  induction l with
  | nil => rfl
  | cons p rest ih =>
      obtain ⟨k', v⟩ := p
      by_cases hk' : k' = id
      · subst hk'
        simp [updateSpeakerName, lookupSpeaker, Ne.symm hk]
      · simp [updateSpeakerName, lookupSpeaker, hk', ih]

/-- C10: renaming an existing speaker is frame-preserving.  If `id` is
stored with record `sp`, then `add_speaker id name` stores under `id` the
record with only the name replaced — the id field and the embedding
(including a previously stored one) survive — and the lookup of every
other key is unchanged. -/
theorem add_speaker_existing_only_renames (r : SpeakerRegistry)
    (id name : String) (sp : Speaker)
    (h : lookupSpeaker r.speakers id = some sp) :
    lookupSpeaker (r.add_speaker id name).speakers id
        = some ⟨sp.id, name, sp.embedding⟩ ∧
    ∀ k, k ≠ id →
      lookupSpeaker (r.add_speaker id name).speakers k
        = lookupSpeaker r.speakers k := by
  constructor
  · simp only [SpeakerRegistry.add_speaker, h]
    rw [lookup_updateSpeakerName_self, h]
    rfl
  · intro k hk
    simp only [SpeakerRegistry.add_speaker, h]
    exact lookup_updateSpeakerName_other r.speakers id name k hk

/-- C10 witness: the theorem applied at a two-speaker registry in which
"s1" carries a stored embedding; renaming "s1" keeps the embedding and
leaves "s2" untouched. -/
theorem add_speaker_existing_only_renames_witness :
    lookupSpeaker [("s1", ⟨"s1", "Alice", some [1, 2]⟩),
                   ("s2", ⟨"s2", "Bob", none⟩)] "s1"
      = some ⟨"s1", "Alice", some [1, 2]⟩ ∧
    lookupSpeaker
        ((SpeakerRegistry.add_speaker
            ⟨[("s1", ⟨"s1", "Alice", some [1, 2]⟩), ("s2", ⟨"s2", "Bob", none⟩)]⟩
            "s1" "Carol").speakers) "s1"
      = some ⟨"s1", "Carol", some [1, 2]⟩ ∧
    lookupSpeaker
        ((SpeakerRegistry.add_speaker
            ⟨[("s1", ⟨"s1", "Alice", some [1, 2]⟩), ("s2", ⟨"s2", "Bob", none⟩)]⟩
            "s1" "Carol").speakers) "s2"
      = lookupSpeaker [("s1", ⟨"s1", "Alice", some [1, 2]⟩),
                       ("s2", ⟨"s2", "Bob", none⟩)] "s2" :=
  ⟨by decide,
   (add_speaker_existing_only_renames
      ⟨[("s1", ⟨"s1", "Alice", some [1, 2]⟩), ("s2", ⟨"s2", "Bob", none⟩)]⟩
      "s1" "Carol" ⟨"s1", "Alice", some [1, 2]⟩ (by decide)).1,
   (add_speaker_existing_only_renames
      ⟨[("s1", ⟨"s1", "Alice", some [1, 2]⟩), ("s2", ⟨"s2", "Bob", none⟩)]⟩
      "s1" "Carol" ⟨"s1", "Alice", some [1, 2]⟩ (by decide)).2 "s2" (by decide)⟩

lemma dispatchRun_append (resample : List ℚ → Nat → Nat → Except String (List ℚ))
    (hasL : Bool) (st : DispatchState) (l1 l2 : List AudioPacket) :
    dispatchRun resample hasL st (l1 ++ l2)
      = ((dispatchRun resample hasL (dispatchRun resample hasL st l1).1 l2).1,
         (dispatchRun resample hasL st l1).2
           ++ (dispatchRun resample hasL (dispatchRun resample hasL st l1).1 l2).2) := by
  induction l1 generalizing st with
  | nil => simp [dispatchRun]
  | cons p ps ih => simp [dispatchRun, ih]

lemma dispatchRun_samples (resample : List ℚ → Nat → Nat → Except String (List ℚ))
    (hasL : Bool) (st : DispatchState) (batches : List (List ℚ)) :
    dispatchRun resample hasL st (batches.map AudioPacket.Samples)
      = ({ st with audio_buffer := st.audio_buffer ++ batches.flatten }, []) := by
  induction batches generalizing st with
  | nil => simp [dispatchRun]
  | cons b bs ih => simp [dispatchRun, dispatchStep, ih]

/-- C2 counterexample: one `Samples` packet with an empty payload followed
by `Flush`, with the last-seen rate 16000 and a listener registered.  The
accumulation buffer is the empty concatenation, so the `Flush` arm's
non-empty guard fails and the listener receives no `on_audio_data` call at
all — not the exactly-one call the claim requires. -/
theorem batch_flush_empty_concat_counterexample :
    (dispatchRun resampleNoop true initDispatchState
        [AudioPacket.Format 16000, AudioPacket.Samples [], AudioPacket.Flush]).2
      = [] ∧
    ([] : List ListenerCall)
      ≠ [ListenerCall.onAudioData (([[]] : List (List ℚ)).flatten)] :=
  ⟨by decide, by decide⟩

/-- C2 (amended): in batch mode with the last-seen sample rate 16000,
after any sequence of `Samples` packets whose payloads concatenate to a
non-empty buffer, followed by one `Flush`, the registered listener receives
exactly one `on_audio_data` call carrying the concatenation, in arrival
order, of all payloads received since the previous flush; when the
concatenation is empty, `Flush` produces no call.  The resampler is
irrelevant (and unconsulted) at rate 16000, so the result holds for every
`resample`. -/
theorem batch_flush_delivers_concatenation
    (resample : List ℚ → Nat → Nat → Except String (List ℚ))
    (batches : List (List ℚ)) (h : batches.flatten ≠ []) :
    (dispatchRun resample true initDispatchState
        (AudioPacket.Format 16000
          :: (batches.map AudioPacket.Samples ++ [AudioPacket.Flush]))).2
      = [ListenerCall.onAudioData batches.flatten] := by
  have hsplit :
      (AudioPacket.Format 16000
        :: (batches.map AudioPacket.Samples ++ [AudioPacket.Flush]))
        = ([AudioPacket.Format 16000] ++ batches.map AudioPacket.Samples)
            ++ [AudioPacket.Flush] := by
    simp
  rw [hsplit, dispatchRun_append, dispatchRun_append, dispatchRun_samples]
  simp [dispatchRun, dispatchStep, initDispatchState, List.isEmpty_iff, h]

/-- C2 witness: two one-sample batches at rate 16000 deliver exactly one
call with both samples in order. -/
theorem batch_flush_delivers_concatenation_witness :
    (([[(1 : ℚ)], [(2 : ℚ)]] : List (List ℚ)).flatten ≠ []) ∧
    (dispatchRun resampleNoop true initDispatchState
        (AudioPacket.Format 16000
          :: (([[(1 : ℚ)], [(2 : ℚ)]] : List (List ℚ)).map AudioPacket.Samples
              ++ [AudioPacket.Flush]))).2
      = [ListenerCall.onAudioData (([[(1 : ℚ)], [(2 : ℚ)]] : List (List ℚ)).flatten)] :=
  ⟨by decide,
   batch_flush_delivers_concatenation resampleNoop [[(1 : ℚ)], [(2 : ℚ)]] (by decide)⟩

lemma drainChunksAux_nil_acc (fuel : Nat) : drainChunksAux fuel [] = ([], []) := by
  cases fuel with
  | zero => rfl
  | succ f =>
      simp only [drainChunksAux, List.length_nil]
      rw [if_neg (by decide)]

lemma drainChunksAux_spec :
    ∀ (fuel : Nat) (acc : List ℚ), acc.length ≤ fuel →
      (drainChunksAux fuel acc).1.flatten ++ (drainChunksAux fuel acc).2 = acc ∧
      (∀ c ∈ (drainChunksAux fuel acc).1, c.length = ASR_CHUNK_SIZE) ∧
      (drainChunksAux fuel acc).2.length < ASR_CHUNK_SIZE := by
  intro fuel
  induction fuel with
  | zero =>
      intro acc hacc
      have hnil : acc = [] := List.eq_nil_of_length_eq_zero (Nat.le_zero.mp hacc)
      subst hnil
      refine ⟨rfl, ?_, by decide⟩
      intro c hc
      simp [drainChunksAux] at hc
  | succ f ih =>
      intro acc hacc
      by_cases hlen : ASR_CHUNK_SIZE ≤ acc.length
      · have hpos : 0 < ASR_CHUNK_SIZE := by decide
        have hdrop : (acc.drop ASR_CHUNK_SIZE).length ≤ f := by
          rw [List.length_drop]
          omega
        obtain ⟨h1, h2, h3⟩ := ih (acc.drop ASR_CHUNK_SIZE) hdrop
        have heq : drainChunksAux (f + 1) acc
            = (acc.take ASR_CHUNK_SIZE
                 :: (drainChunksAux f (acc.drop ASR_CHUNK_SIZE)).1,
               (drainChunksAux f (acc.drop ASR_CHUNK_SIZE)).2) := by
          simp only [drainChunksAux, if_pos hlen]
        rw [heq]
        refine ⟨?_, ?_, h3⟩
        · simp only [List.flatten_cons, List.append_assoc, h1]
          exact List.take_append_drop ASR_CHUNK_SIZE acc
        · intro c hc
          rcases List.mem_cons.mp hc with hc | hc
          · subst hc
            rw [List.length_take]
            exact Nat.min_eq_left hlen
          · exact h2 c hc
      · have heq : drainChunksAux (f + 1) acc = ([], acc) := by
          simp only [drainChunksAux, if_neg hlen]
        rw [heq]
        refine ⟨rfl, ?_, Nat.lt_of_not_le hlen⟩
        intro c hc
        simp at hc

lemma drainChunks_spec (acc : List ℚ) :
    (drainChunks acc).1.flatten ++ (drainChunks acc).2 = acc ∧
    (∀ c ∈ (drainChunks acc).1, c.length = ASR_CHUNK_SIZE) ∧
    (drainChunks acc).2.length < ASR_CHUNK_SIZE :=
  drainChunksAux_spec acc.length acc le_rfl

lemma processFeeds_spec :
    ∀ (feeds : List (List ℚ)) (acc : List ℚ), acc.length < ASR_CHUNK_SIZE →
      (processFeeds acc feeds).1.flatten ++ (processFeeds acc feeds).2
          = acc ++ feeds.flatten ∧
      (∀ c ∈ (processFeeds acc feeds).1, c.length = ASR_CHUNK_SIZE) ∧
      (processFeeds acc feeds).2.length < ASR_CHUNK_SIZE := by
  intro feeds
  induction feeds with
  | nil =>
      intro acc hacc
      refine ⟨by simp [processFeeds], ?_, by simpa [processFeeds] using hacc⟩
      intro c hc
      simp [processFeeds] at hc
  | cons f fs ih =>
      intro acc hacc
      obtain ⟨d1, d2, d3⟩ := drainChunks_spec (acc ++ f)
      obtain ⟨p1, p2, p3⟩ := ih (drainChunks (acc ++ f)).2 d3
      have heq : processFeeds acc (f :: fs)
          = ((drainChunks (acc ++ f)).1
               ++ (processFeeds (drainChunks (acc ++ f)).2 fs).1,
             (processFeeds (drainChunks (acc ++ f)).2 fs).2) := by
        simp only [processFeeds]
      rw [heq]
      refine ⟨?_, ?_, p3⟩
      · simp only [List.flatten_append, List.append_assoc, p1]
        rw [← List.append_assoc, d1, List.append_assoc, List.flatten_cons]
      · intro c hc
        rcases List.mem_append.mp hc with hc | hc
        · exact d2 c hc
        · exact p2 c hc

lemma flatten_length_of_const {cs : List (List ℚ)} {n : Nat}
    (h : ∀ c ∈ cs, c.length = n) : cs.flatten.length = cs.length * n := by
  induction cs with
  | nil => simp
  | cons c cs ih =>
      have hc := h c (List.mem_cons_self c cs)
      have hrest : ∀ x ∈ cs, x.length = n := fun x hx => h x (List.mem_cons_of_mem c hx)
      simp only [List.flatten_cons, List.length_append, List.length_cons, hc,
        ih hrest, Nat.succ_mul]
      omega

/-- C3: for a total input of `N` samples fed to the chunking stage starting
from an empty accumulation buffer, the worker emits exactly `N / 480`
`Samples` chunks, each exactly `ASR_CHUNK_SIZE = 480` samples long; their
concatenation followed by the final buffer reconstructs the input (FIFO
order preserved, no sample reordered, duplicated or lost); and the
remaining `N % 480` samples stay in the accumulation buffer — no short
chunk is ever emitted. -/
theorem chunking_exact_floor (feeds : List (List ℚ)) :
    (processFeeds [] feeds).1.length = feeds.flatten.length / ASR_CHUNK_SIZE ∧
    (∀ c ∈ (processFeeds [] feeds).1, c.length = ASR_CHUNK_SIZE) ∧
    (processFeeds [] feeds).1.flatten ++ (processFeeds [] feeds).2
        = feeds.flatten ∧
    (processFeeds [] feeds).2.length = feeds.flatten.length % ASR_CHUNK_SIZE := by
  obtain ⟨h1, h2, h3⟩ := processFeeds_spec feeds [] (by decide)
  rw [List.nil_append] at h1
  have hcount : feeds.flatten.length
      = (processFeeds [] feeds).1.length * ASR_CHUNK_SIZE
        + (processFeeds [] feeds).2.length := by
    rw [← h1, List.length_append, flatten_length_of_const h2]
  have hK : ASR_CHUNK_SIZE = 480 := rfl
  refine ⟨?_, h2, h1, ?_⟩
  · rw [hK]
    rw [hK] at hcount h3
    omega
  · rw [hK]
    rw [hK] at hcount h3
    omega

lemma emit_level_precedes (chunks : List (List ℚ)) :
    ∀ (i : Nat) (c : List ℚ),
      (emitChunkPackets chunks)[i]? = some (AudioPacket.Samples c) →
      ∃ j, j < i ∧ (emitChunkPackets chunks)[j]?
          = some (AudioPacket.Level (peakLevel c)) := by
  induction chunks with
  | nil =>
      intro i c h
      simp [emitChunkPackets] at h
  | cons c0 cs ih =>
      intro i c h
      have hunf : emitChunkPackets (c0 :: cs)
          = AudioPacket.Level (peakLevel c0) :: AudioPacket.Samples c0
              :: emitChunkPackets cs := by
        simp [emitChunkPackets]
      rw [hunf] at h
      cases i with
      | zero => simp at h
      | succ i1 =>
          cases i1 with
          | zero =>
              simp at h
              subst h
              exact ⟨0, Nat.zero_lt_one, by simp [hunf]⟩
          | succ n =>
              simp only [List.getElem?_cons_succ] at h
              obtain ⟨j, hj, hg⟩ := ih n c h
              refine ⟨j + 2, by omega, ?_⟩
              rw [hunf]
              simpa [List.getElem?_cons_succ] using hg

/-- C4: in the worker's emitted packet stream, every `Samples(chunk)`
packet is strictly preceded by a `Level` packet carrying the peak absolute
amplitude of that same chunk. -/
theorem level_precedes_samples (feeds : List (List ℚ)) (i : Nat) (c : List ℚ)
    (h : (workerPackets feeds)[i]? = some (AudioPacket.Samples c)) :
    ∃ j, j < i ∧ (workerPackets feeds)[j]?
        = some (AudioPacket.Level (peakLevel c)) :=
  emit_level_precedes (processFeeds [] feeds).1 i c h

lemma drainChunksAux_succ (fuel : Nat) (acc : List ℚ) :
    drainChunksAux (fuel + 1) acc
      = if ASR_CHUNK_SIZE ≤ acc.length then
          (acc.take ASR_CHUNK_SIZE
             :: (drainChunksAux fuel (acc.drop ASR_CHUNK_SIZE)).1,
           (drainChunksAux fuel (acc.drop ASR_CHUNK_SIZE)).2)
        else
          ([], acc) := rfl

lemma drainChunks_exact (l : List ℚ) (h : l.length = ASR_CHUNK_SIZE) :
    drainChunks l = ([l], []) := by
  have hK : (ASR_CHUNK_SIZE : Nat) = 479 + 1 := rfl
  unfold drainChunks
  rw [h, hK, drainChunksAux_succ]
  rw [if_pos (le_of_eq h.symm)]
  rw [← h, List.take_length, List.drop_length, drainChunksAux_nil_acc]

lemma workerPackets_single_chunk (l : List ℚ) (h : l.length = ASR_CHUNK_SIZE) :
    workerPackets [l]
      = [AudioPacket.Level (peakLevel l), AudioPacket.Samples l] := by
  simp [workerPackets, processFeeds, drainChunks_exact l h, emitChunkPackets]

/-- C4 witness: the theorem applied to a single exactly-480-sample feed,
whose emitted stream is `Level` then `Samples`. -/
theorem level_precedes_samples_witness :
    (workerPackets [List.replicate ASR_CHUNK_SIZE (0 : ℚ)])[1]?
        = some (AudioPacket.Samples (List.replicate ASR_CHUNK_SIZE (0 : ℚ))) ∧
    ∃ j, j < 1 ∧ (workerPackets [List.replicate ASR_CHUNK_SIZE (0 : ℚ)])[j]?
        = some (AudioPacket.Level
            (peakLevel (List.replicate ASR_CHUNK_SIZE (0 : ℚ)))) := by
  have hpk := workerPackets_single_chunk (List.replicate ASR_CHUNK_SIZE (0 : ℚ))
    (List.length_replicate _ _)
  constructor
  · rw [hpk]
    rfl
  · exact level_precedes_samples _ 1 _ (by rw [hpk]; rfl)

end SupraSonic
